import Mathlib

/-!
Verification of the command dispatch and built-in operations of `myshell.c`.

The program is a small interactive shell.  Its dispatch layer matches the
input line against `sscanf` patterns of the form `"verb %s"` and against
exact string comparisons (`strncmp(buffer, "verb", BUFFER_SIZE)`), in a
fixed order, and invokes the matching built-in.  The built-ins wrap single
POSIX calls (`chdir`, `opendir`/`readdir`/`closedir`, `open`/`read`/`write`,
`mkdir`, `rmdir`, `unlink`, `stat`, `getcwd`).

Modelling choices, all taken from the C source:

* Strings are `List Char` (C strings without their terminating NUL).
* `sscanf(buffer, "verb %s", filename)` is modelled by `scanVerbArg`:
  the literal verb characters must match the beginning of the buffer
  exactly (a literal directive does not skip whitespace and requires no
  token boundary after it); the whitespace directive plus `%s` then skip
  any amount of whitespace and read a maximal non-empty run of
  non-whitespace characters.  The call yields `1` exactly when such a run
  exists; extra input after the token is ignored.
* `strncmp(buffer, "verb", BUFFER_SIZE) == 0` is string equality, since
  both arguments are NUL-terminated strings shorter than `BUFFER_SIZE`.
* The operating system is an oracle supplied to each built-in: success or
  failure of each syscall, file contents as the byte sequences successive
  `read` calls return, directory entries as the sequence of `readdir`
  results, `strerror(errno)` as an abstract message string.
* Standard-error output is a list of lines (each line without its trailing
  newline); standard output is bytes for `cat` and lines for `ls`.
* Undefined behaviour (the unguarded `p->pw_dir` dereference in `do_cd`
  when `getpwuid` returns NULL) is modelled by a dedicated outcome.
-/

namespace MyShell

/-- `isspace` of the C default locale: space, tab, newline, vertical tab,
form feed, carriage return. -/
def isspaceC (c : Char) : Bool :=
  c = ' ' || c = '\t' || c = '\n' || c = '\x0b' || c = '\x0c' || c = '\r'

/-- Convenience: the character list of a string literal. -/
def s2l (s : String) : List Char := s.data

/-- Skip a (possibly empty) run of whitespace, as the whitespace directive
and the implicit skip of `%s` do. -/
def dropSpaces : List Char → List Char
  | [] => []
  | c :: cs => if isspaceC c then dropSpaces cs else c :: cs

/-- The maximal non-whitespace run at the head of the input: the token
`%s` stores. -/
def takeToken : List Char → List Char
  | [] => []
  | c :: cs => if isspaceC c then [] else c :: takeToken cs

/-- The rest of the input after the maximal non-whitespace run at its head. -/
def dropToken : List Char → List Char
  | [] => []
  | c :: cs => if isspaceC c then c :: cs else dropToken cs

/-- Split an input line into its whitespace-delimited tokens
(worker: `acc` holds the characters of the current token, reversed). -/
def tokensAux : List Char → List Char → List (List Char)
  | [], acc => if acc = [] then [] else [acc.reverse]
  | c :: cs, acc =>
    if isspaceC c then
      if acc = [] then tokensAux cs [] else acc.reverse :: tokensAux cs []
    else tokensAux cs (c :: acc)

/-- The whitespace-delimited tokens of an input line.  The first element,
when present, is what the specification calls the line's leading token
(its verb). -/
def tokens (l : List Char) : List (List Char) := tokensAux l []

/-- Matching of the literal (non-conversion) part of an `sscanf` format:
each literal character must equal the corresponding input character; on
success the unconsumed input is returned.  No whitespace is skipped and no
token boundary is required after the literal. -/
def scanLit : List Char → List Char → Option (List Char)
  | [], rest => some rest
  | _ :: _, [] => none
  | v :: vs, c :: cs => if c = v then scanLit vs cs else none

/-- `sscanf(buffer, "<verb> %s", filename) == 1`, returning the token
stored into `filename`.  The format's literal verb must match the start of
the buffer exactly; then whitespace (possibly none) is skipped and a
non-empty token is read.  `none` models a return value other than 1. -/
def scanVerbArg (verb line : List Char) : Option (List Char) :=
  match scanLit verb line with
  | none => none
  | some rest =>
    let tok := takeToken (dropSpaces rest)
    if tok = [] then none else some tok

/-! Verb name constants (as character lists, so that proofs can reduce
scans on lines whose head is symbolic). -/

def catV : List Char := ['c', 'a', 't']
def cdV : List Char := ['c', 'd']
def statV : List Char := ['s', 't', 'a', 't']
def mkdirV : List Char := ['m', 'k', 'd', 'i', 'r']
def rmdirV : List Char := ['r', 'm', 'd', 'i', 'r']
def rmV : List Char := ['r', 'm']
def lsV : List Char := ['l', 's']
def pwdV : List Char := ['p', 'w', 'd']
def exitV : List Char := ['e', 'x', 'i', 't']
def qV : List Char := ['q']
def dotV : List Char := ['.']

/-- The recognized verbs, as the specification lists them. -/
def knownVerbs : List (List Char) :=
  [catV, cdV, statV, mkdirV, rmdirV, rmV, lsV, pwdV, exitV, qV]

/-! ## The dispatcher (`execute_command`, lines 272-315, and the special
cases of `main`, lines 91-99) -/

/-- A built-in invocation chosen by `execute_command`, with the argument
passed in the shared `filename` buffer. -/
inductive BuiltinCall where
  | catB (arg : List Char)
  | statB (arg : List Char)
  | mkdirB (arg : List Char)
  | rmdirB (arg : List Char)
  | rmB (arg : List Char)
  | lsB (arg : List Char)
  | pwdB
  | qB
deriving DecidableEq

/-- Control-flow outcome of `execute_command`: a built-in is invoked and
its value returned; or the line is non-empty and unmatched (one line
`"myshell: <line>: No such file or directory"` on standard error, return
-1); or the line is empty (no output, return -1). -/
inductive ExecStep where
  | call (b : BuiltinCall)
  | invalid (line : List Char)
  | silent
deriving DecidableEq

/-- The pattern-matching chain of `execute_command` (myshell.c:272-315),
in source order: `cat %s`, `stat %s`, `mkdir %s`, `rmdir %s`, `rm %s`,
`ls %s` or exact `ls` (defaulting the argument to `"."`), exact `pwd`,
`q %s` or exact `q` (argument discarded), then the invalid-command check
`strnlen(buffer, BUFFER_SIZE) != 0`. -/
def execute_command_dispatch (line : List Char) : ExecStep :=
  match scanVerbArg catV line with
  | some a => .call (.catB a)
  | none =>
  match scanVerbArg statV line with
  | some a => .call (.statB a)
  | none =>
  match scanVerbArg mkdirV line with
  | some a => .call (.mkdirB a)
  | none =>
  match scanVerbArg rmdirV line with
  | some a => .call (.rmdirB a)
  | none =>
  match scanVerbArg rmV line with
  | some a => .call (.rmB a)
  | none =>
  match scanVerbArg lsV line with
  | some a => .call (.lsB a)
  | none =>
  if line = lsV then .call (.lsB dotV)
  else if line = pwdV then .call .pwdB
  else
  match scanVerbArg qV line with
  | some _ => .call .qB
  | none =>
  if line = qV then .call .qB
  else if line.length ≠ 0 then .invalid line
  else .silent

/-- What `main` does with one stripped input line (myshell.c:91-99):
`cd` (pattern or exact, the exact form passing the zeroed `filename`, i.e.
the empty argument) and `exit` (exact) are special-cased ahead of
`execute_command`. -/
inductive LineAction where
  | cdA (arg : List Char)
  | exitA
  | execA (s : ExecStep)
deriving DecidableEq

/-- Dispatch of one stripped line by `main`. -/
def dispatchLine (line : List Char) : LineAction :=
  match scanVerbArg cdV line with
  | some a => .cdA a
  | none =>
  if line = cdV then .cdA []
  else if line = exitV then .exitA
  else .execA (execute_command_dispatch line)

/-! ## Diagnostic lines

Each `fprintf(stderr, ...)` of the source produces one line; these
functions build that line (without its trailing newline) from the abstract
`strerror(errno)` text. -/

def cdErrLine (msg : List Char) : List Char := s2l "cd: " ++ msg

def lsOpenErrLine (msg : List Char) : List Char := s2l "ls: " ++ msg

def lsReadErrLine (msg : List Char) : List Char :=
  s2l "ls: Cannot read entry from directory... " ++ msg

def catOpenErrLine (msg : List Char) : List Char :=
  s2l "cat: Cannot open file. " ++ msg

def catReadErrLine (msg : List Char) : List Char :=
  s2l "cat: cannot read file. " ++ msg

def mkdirErrLine (msg : List Char) : List Char :=
  s2l "mkdir: Cannot create directory. " ++ msg ++ s2l "."

def rmdirErrLine (msg : List Char) : List Char :=
  s2l "rmdir: Cannot remove directory. " ++ msg ++ s2l "."

def pwdErrLine (msg : List Char) : List Char :=
  s2l "pwd: Could not find current directory. " ++ msg ++ s2l "."

def rmErrLine (msg : List Char) : List Char :=
  s2l "rm: Cannot remove file. " ++ msg ++ s2l "."

def statErrLine (msg : List Char) : List Char :=
  s2l "stat: Cannot retrieve file stats. " ++ msg ++ s2l "."

def myshellErrLine (line : List Char) : List Char :=
  s2l "myshell: " ++ line ++ s2l ": No such file or directory"

/-- `needle` occurs contiguously inside `hay`. -/
def hasSub (needle hay : List Char) : Prop :=
  ∃ p r, hay = p ++ needle ++ r

/-! ## Observable result of `execute_command` -/

/-- Observable result of running one built-in: its standard-output lines,
standard-error lines, and return value. -/
structure RunOut where
  out : List (List Char)
  err : List (List Char)
  ret : Int
deriving DecidableEq

/-- `execute_command` itself: dispatch the line, then either run the
selected built-in (`runB` is the oracle giving each built-in's result) and
return its value, or print the invalid-command diagnostic and return -1,
or (empty line) print nothing and return -1.  The first component records
which built-in, if any, was invoked. -/
def execute_command (runB : BuiltinCall → RunOut) (line : List Char) :
    Option BuiltinCall × RunOut :=
  match execute_command_dispatch line with
  | .call b => (some b, runB b)
  | .invalid l => (none, ⟨[], [myshellErrLine l], -1⟩)
  | .silent => (none, ⟨[], [], -1⟩)

/-! ## One iteration of the main loop -/

/-- What one iteration of `main`'s loop observably does with a stripped
line: output, and whether the process terminates.  The return values of
`do_cd` and of `execute_command` are discarded by `main`. -/
structure MainObs where
  out : List (List Char)
  err : List (List Char)
  exits : Bool
deriving DecidableEq

/-- Run one dispatched built-in from `main`'s point of view: `do_q` calls
`exit(EXIT_SUCCESS)` before producing output, every other built-in runs to
completion and its return value is dropped. -/
def runCall (runB : BuiltinCall → RunOut) (b : BuiltinCall) : MainObs :=
  if b = .qB then ⟨[], [], true⟩
  else ⟨(runB b).out, (runB b).err, false⟩

/-- One loop iteration of `main` on an already stripped line (`runCd` is
the oracle for `do_cd`'s observable output). -/
def mainStep (runCd : List Char → RunOut) (runB : BuiltinCall → RunOut)
    (line : List Char) : MainObs :=
  match dispatchLine line with
  | .cdA a => ⟨(runCd a).out, (runCd a).err, false⟩
  | .exitA => ⟨[], [], true⟩
  | .execA (.call b) => runCall runB b
  | .execA (.invalid l) => ⟨[], [myshellErrLine l], false⟩
  | .execA .silent => ⟨[], [], false⟩

/-! ## `strip_trailing_whitespace` (myshell.c:53-58)

The C loop walks backwards from the last character, overwriting
whitespace with NUL.  It stops at the first non-whitespace byte it reads.
When the string is empty or consists only of whitespace the index reaches
-1 and the loop reads the byte stored immediately before the buffer
(`string[-1]`, already outside the array): if that byte is not whitespace
the loop stops, leaving the empty string; if it is whitespace the loop
writes outside the buffer — modelled as `none` (out-of-bounds write).
`preByte` is the byte the model assumes at `string[-1]`. -/
def strip_trailing_whitespace (preByte : Char) (s : List Char) :
    Option (List Char) :=
  let r := (s.reverse.dropWhile isspaceC).reverse
  if r = [] then (if isspaceC preByte then none else some []) else some r

/-! ## `do_cd` (myshell.c:112-126) and `do_pwd` (myshell.c:210-217)

The working-directory state seen by these two built-ins.  Directory paths
are taken as canonical names: `chdir(d)` succeeds exactly when
`validDir d`, and after a successful `chdir(d)` a successful `getcwd`
reports `d`. -/
structure OSWorld where
  /-- What `getcwd` reports when it succeeds. -/
  cwd : List Char
  /-- Whether `chdir` on this path succeeds. -/
  validDir : List Char → Bool
  /-- `getpwuid(getuid())`: `none` models a NULL return (no user record),
  `some h` a record with home directory `h`. -/
  home : Option (List Char)
  /-- `strerror(errno)` after a failed `chdir`. -/
  chdirErrMsg : List Char
  /-- Whether `getcwd` succeeds. -/
  getcwdOk : Bool
  /-- `strerror(errno)` after a failed `getcwd`. -/
  getcwdErrMsg : List Char
  /-- The pre-existing contents of the uninitialized local `current_dir`
  buffer of `do_pwd`, printed when `getcwd` fails. -/
  junkBuf : List Char

/-- Outcome of `do_cd`: a normal return carrying the updated world, the
standard-error lines, and the return value — or undefined behaviour. -/
inductive CdStep where
  | done (w : OSWorld) (err : List (List Char)) (ret : Int)
  | undefBehavior

/-- `do_cd` (myshell.c:112-126).  `getpwuid(getuid())` is called first;
when the argument is empty, `p->pw_dir` is copied into it with no check
that `p` is non-NULL — with no user record this dereferences NULL,
which is undefined behaviour (`CdStep.undefBehavior`).  Then `chdir` runs
on the (possibly substituted) argument: on failure one line
`"cd: <strerror>"` goes to standard error and -1 is returned; on success
nothing is printed and 0 is returned. -/
def do_cd (w : OSWorld) (dirname : List Char) : CdStep :=
  if dirname.length = 0 then
    match w.home with
    | none => .undefBehavior
    | some h =>
      if w.validDir h then .done { w with cwd := h } [] 0
      else .done w [cdErrLine w.chdirErrMsg] (-1)
  else
    if w.validDir dirname then .done { w with cwd := dirname } [] 0
    else .done w [cdErrLine w.chdirErrMsg] (-1)

/-- Observable result of `do_pwd`: the bytes printed to standard output,
the standard-error lines, and the return value. -/
structure PwdOut where
  stdout : List Char
  err : List (List Char)
  ret : Int

/-- `do_pwd` (myshell.c:210-217).  On `getcwd` failure it reports the
reason but still executes `printf("%s\n", current_dir)` on the
uninitialized local buffer; in both cases it falls through to
`return 1`. -/
def do_pwd (w : OSWorld) : PwdOut :=
  if w.getcwdOk then ⟨w.cwd ++ ['\n'], [], 1⟩
  else ⟨w.junkBuf ++ ['\n'], [pwdErrLine w.getcwdErrMsg], 1⟩

/-! ## `do_ls` (myshell.c:133-151) -/

/-- The oracle for one `do_ls` run: whether `opendir` succeeds, the
successive `readdir` results (entry name, paired with whether `errno` is
non-zero when the loop body tests it), and the `strerror` texts. -/
structure LsWorld where
  openOk : Bool
  openErrMsg : List Char
  stream : List (List Char × Bool)
  readErrMsg : List Char

/-- Observable result of `do_ls`: entry names printed to standard output
(one per line), standard-error lines, return value, and how many times
`closedir` was called on the handle `opendir` returned. -/
structure LsOut where
  stdout : List (List Char)
  err : List (List Char)
  ret : Int
  closes : Nat

/-- The `readdir` loop of `do_ls`: while `readdir` yields an entry, print
its name if `errno` is still 0, otherwise report, `closedir`, and return
-1; when `readdir` yields NULL, `closedir` and return 0. -/
def lsLoop (msg : List Char) : List (List Char × Bool) → LsOut
  | [] => ⟨[], [], 0, 1⟩
  | (nm, e) :: rest =>
    if e then ⟨[], [lsReadErrLine msg], -1, 1⟩
    else
      let r := lsLoop msg rest
      ⟨nm :: r.stdout, r.err, r.ret, r.closes⟩

/-- `do_ls` (myshell.c:133-151).  If `opendir` fails: one line
`"ls: <strerror>"`, return -1, nothing to close.  Otherwise run the
enumeration loop. -/
def do_ls (w : LsWorld) : LsOut :=
  if w.openOk then lsLoop w.readErrMsg w.stream
  else ⟨[], [lsOpenErrLine w.openErrMsg], -1, 0⟩

/-! ## `do_cat` (myshell.c:158-177) -/

/-- The oracle for one `do_cat` run: whether `open` succeeds, the file's
bytes, whether the k-th `read` call fails (-1), whether the k-th `write`
call writes its full chunk, and the `strerror` texts. -/
structure CatWorld where
  openOk : Bool
  openErrMsg : List Char
  content : List Nat
  readErr : Nat → Bool
  writeOk : Nat → Bool
  rwErrMsg : List Char

/-- Observable result of `do_cat`: bytes written to standard output,
standard-error lines, return value, number of `close` calls on the
descriptor `open` returned, and number of `close(-1)` calls (the source
closes the failed descriptor too). -/
structure CatOut where
  stdout : List Nat
  err : List (List Char)
  ret : Int
  closesFd : Nat
  closesNeg : Nat

/-- The successive chunks a sequence of `read(fd, buffer, 256)` calls
returns for a file holding these bytes: maximal 256-byte slices, in
order.  The final call returns no bytes and ends the loop. -/
def chunks256 : List Nat → List (List Nat)
  | [] => []
  | b :: bs => (b :: bs.take 255) :: chunks256 (bs.drop 255)
termination_by l => l.length
decreasing_by
  simp [List.length_drop]
  omega

/-- The read/write loop of `do_cat` over the remaining chunks, `k` being
the index of the next `read` call.  A `read` of 0 bytes ends the loop:
`close`, return 0.  A failing `read`, or a `write` that does not write the
whole chunk: `close`, one line `"cat: cannot read file. <strerror>"`,
return -1.  Otherwise the chunk's bytes go to standard output, followed by
`printf("\n")`. -/
def catLoop (readErr writeOk : Nat → Bool) (msg : List Char) :
    Nat → List (List Nat) → CatOut
  | k, [] =>
    if readErr k then ⟨[], [catReadErrLine msg], -1, 1, 0⟩
    else ⟨[], [], 0, 1, 0⟩
  | k, chunk :: rest =>
    if readErr k then ⟨[], [catReadErrLine msg], -1, 1, 0⟩
    else if writeOk k then
      let r := catLoop readErr writeOk msg (k + 1) rest
      ⟨chunk ++ 10 :: r.stdout, r.err, r.ret, r.closesFd, r.closesNeg⟩
    else ⟨[], [catReadErrLine msg], -1, 1, 0⟩

/-- `do_cat` (myshell.c:158-177).  If `open` fails the source calls
`close(fd)` on the failed descriptor (-1), prints one line
`"cat: Cannot open file. <strerror>"`, and returns `fd`, i.e. -1; nothing
reaches standard output.  Otherwise the read/write loop runs. -/
def do_cat (w : CatWorld) : CatOut :=
  if w.openOk then catLoop w.readErr w.writeOk w.rwErrMsg 0 (chunks256 w.content)
  else ⟨[], [catOpenErrLine w.openErrMsg], -1, 0, 1⟩

/-! ## `do_mkdir`, `do_rmdir`, `do_rm` (myshell.c:184-191, 198-204,
224-231) and `do_stat` (myshell.c:238-260) -/

/-- Observable result of the one-call wrappers: standard-error lines and
return value (none of them writes to standard output). -/
structure OpOut where
  err : List (List Char)
  ret : Int
deriving DecidableEq

/-- `do_mkdir`: `mkdir(dirname, 0777)`; on failure one line
`"mkdir: Cannot create directory. <strerror>."` and the failed result -1,
on success its result 0. -/
def do_mkdir (mkdirOk : List Char → Bool) (msg dirname : List Char) : OpOut :=
  if mkdirOk dirname then ⟨[], 0⟩ else ⟨[mkdirErrLine msg], -1⟩

/-- `do_rmdir`: `rmdir(dirname)`; on failure one line
`"rmdir: Cannot remove directory. <strerror>."` and -1, on success 0. -/
def do_rmdir (rmdirOk : List Char → Bool) (msg dirname : List Char) : OpOut :=
  if rmdirOk dirname then ⟨[], 0⟩ else ⟨[rmdirErrLine msg], -1⟩

/-- `do_rm`: `unlink(filename)`; on failure one line
`"rm: Cannot remove file. <strerror>."` and the failed result -1, on
success its result 0. -/
def do_rm (unlinkOk : List Char → Bool) (msg filename : List Char) : OpOut :=
  if unlinkOk filename then ⟨[], 0⟩ else ⟨[rmErrLine msg], -1⟩

/-- Observable result of `do_stat`: the metadata report printed to
standard output, standard-error lines, and return value. -/
structure StatOut where
  stdout : List Char
  err : List (List Char)
  ret : Int

/-- `do_stat`: `stat(filename, &stats)`; on failure one line
`"stat: Cannot retrieve file stats. <strerror>."` and the failed result
-1; on success the fixed human-readable report (abstracted as `report`)
goes to standard output and the successful result 0 is returned. -/
def do_stat (statOk : List Char → Bool) (msg report filename : List Char) :
    StatOut :=
  if statOk filename then ⟨report, [], 0⟩ else ⟨[], [statErrLine msg], -1⟩

/-! ## Helper lemmas about the `sscanf` model -/

theorem scanLit_some_iff : ∀ (v line r : List Char),
    scanLit v line = some r ↔ line = v ++ r := by
  intro v
  induction v with
  | nil => intro line r; simp [scanLit]
  | cons x xs ih =>
    intro line r
    cases line with
    | nil => simp [scanLit]
    | cons c cs =>
      by_cases hc : c = x
      · subst hc
        simp [scanLit, ih]
      · simp [scanLit, hc]

theorem scanLit_self_append (v r : List Char) : scanLit v (v ++ r) = some r :=
  (scanLit_some_iff v (v ++ r) r).mpr rfl

theorem scanVerbArg_append (v r : List Char) :
    scanVerbArg v (v ++ r) =
      if takeToken (dropSpaces r) = [] then none
      else some (takeToken (dropSpaces r)) := by
  simp [scanVerbArg, scanLit_self_append]

/-- A successful scan means the line literally begins with the verb's
characters and something non-empty follows. -/
theorem scan_shape {v line a : List Char} (h : scanVerbArg v line = some a) :
    ∃ r, line = v ++ r ∧ r ≠ [] := by
  unfold scanVerbArg at h
  cases hsl : scanLit v line with
  | none => rw [hsl] at h; cases h
  | some rest =>
    rw [hsl] at h
    refine ⟨rest, (scanLit_some_iff v line rest).mp hsl, ?_⟩
    rintro rfl
    simp [dropSpaces, takeToken] at h

/-! ## Claim C1 -/

/-- Claim C1, counterexamples.  The `sscanf`-based patterns require no
token boundary after the verb and ignore everything after the first
argument token, and the exact-match verbs `pwd` and `exit` accept no
argument form at all.  Concretely: `"cat a b"` (three tokens) is
dispatched to `do_cat("a")`; `"catx"` (whose single leading token `catx`
merely begins with `cat`) is dispatched to `do_cat("x")`; `"rmdir"` (a
recognized verb alone) is dispatched to `do_rm("dir")`; and `"pwd x"`
(a recognized verb followed by exactly one argument token) is not
dispatched at all but reported as an invalid command. -/
theorem c1_counterexample :
    tokens (s2l "cat a b") = [s2l "cat", s2l "a", s2l "b"] ∧
    dispatchLine (s2l "cat a b") = .execA (.call (.catB (s2l "a"))) ∧
    tokens (s2l "catx") = [s2l "catx"] ∧
    dispatchLine (s2l "catx") = .execA (.call (.catB (s2l "x"))) ∧
    dispatchLine (s2l "rmdir") = .execA (.call (.rmB (s2l "dir"))) ∧
    tokens (s2l "pwd x") = [s2l "pwd", s2l "x"] ∧
    dispatchLine (s2l "pwd x") = .execA (.invalid (s2l "pwd x")) := by
  decide

/-- Claim C1 (amended): exact characterization of the dispatcher.  A line
is dispatched to an argument-taking verb's built-in exactly when it
literally begins with the verb's characters (no token boundary required)
and a non-whitespace character follows; the first whitespace-delimited
token after the verb text becomes the argument and any further tokens are
ignored.  Matching is first-match in the order cd, exit, cat, stat,
mkdir, rmdir, rm, ls, pwd, q; `cd`, `ls` and `q` also match alone
(argument empty resp. defaulted to "." resp. discarded), while `pwd` and
`exit` match only alone. -/
theorem c1_dispatch_characterization (line a : List Char) :
    (dispatchLine line = .cdA a ↔
      (scanVerbArg cdV line = some a ∨ (line = cdV ∧ a = []))) ∧
    (dispatchLine line = .exitA ↔ line = exitV) ∧
    (dispatchLine line = .execA (.call (.catB a)) ↔
      scanVerbArg catV line = some a) ∧
    (dispatchLine line = .execA (.call (.statB a)) ↔
      scanVerbArg statV line = some a) ∧
    (dispatchLine line = .execA (.call (.mkdirB a)) ↔
      scanVerbArg mkdirV line = some a) ∧
    (dispatchLine line = .execA (.call (.rmdirB a)) ↔
      scanVerbArg rmdirV line = some a) ∧
    (dispatchLine line = .execA (.call (.rmB a)) ↔
      (scanVerbArg rmdirV line = none ∧ scanVerbArg rmV line = some a)) ∧
    (dispatchLine line = .execA (.call (.lsB a)) ↔
      (scanVerbArg lsV line = some a ∨ (line = lsV ∧ a = dotV))) ∧
    (dispatchLine line = .execA (.call .pwdB) ↔ line = pwdV) ∧
    (dispatchLine line = .execA (.call .qB) ↔
      ((∃ b, scanVerbArg qV line = some b) ∨ line = qV)) := by
  cases h1 : scanVerbArg cdV line with
  | some a1 =>
    obtain ⟨r, hline, hrne⟩ := scan_shape h1
    subst hline
    have hd : dispatchLine (cdV ++ r) = .cdA a1 := by
      unfold dispatchLine
      rw [h1]
    simp [hd, h1, hrne,
      show scanVerbArg catV (cdV ++ r) = none from rfl,
      show scanVerbArg statV (cdV ++ r) = none from rfl,
      show scanVerbArg mkdirV (cdV ++ r) = none from rfl,
      show scanVerbArg rmdirV (cdV ++ r) = none from rfl,
      show scanVerbArg rmV (cdV ++ r) = none from rfl,
      show scanVerbArg lsV (cdV ++ r) = none from rfl,
      show scanVerbArg qV (cdV ++ r) = none from rfl,
      show ¬(cdV ++ r = cdV) from fun h => hrne (by simpa [cdV] using h),
      show ¬(cdV ++ r = exitV) from by simp [cdV, exitV],
      show ¬(cdV ++ r = lsV) from by simp [cdV, lsV],
      show ¬(cdV ++ r = pwdV) from by simp [cdV, pwdV],
      show ¬(cdV ++ r = qV) from by simp [cdV, qV]]
  | none =>
    by_cases hB : line = cdV
    · subst hB
      simp [show dispatchLine cdV = .cdA [] from rfl, h1,
        show scanVerbArg catV cdV = (none : Option (List Char)) from rfl,
        show scanVerbArg statV cdV = (none : Option (List Char)) from rfl,
        show scanVerbArg mkdirV cdV = (none : Option (List Char)) from rfl,
        show scanVerbArg rmdirV cdV = (none : Option (List Char)) from rfl,
        show scanVerbArg rmV cdV = (none : Option (List Char)) from rfl,
        show scanVerbArg lsV cdV = (none : Option (List Char)) from rfl,
        show scanVerbArg qV cdV = (none : Option (List Char)) from rfl,
        show ¬(cdV = exitV) from by decide,
        show ¬(cdV = lsV) from by decide,
        show ¬(cdV = pwdV) from by decide,
        show ¬(cdV = qV) from by decide]
    · by_cases hC : line = exitV
      · subst hC
        simp [show dispatchLine exitV = .exitA from rfl, h1,
          show scanVerbArg catV exitV = (none : Option (List Char)) from rfl,
          show scanVerbArg statV exitV = (none : Option (List Char)) from rfl,
          show scanVerbArg mkdirV exitV = (none : Option (List Char)) from rfl,
          show scanVerbArg rmdirV exitV = (none : Option (List Char)) from rfl,
          show scanVerbArg rmV exitV = (none : Option (List Char)) from rfl,
          show scanVerbArg lsV exitV = (none : Option (List Char)) from rfl,
          show scanVerbArg qV exitV = (none : Option (List Char)) from rfl,
          show ¬(exitV = cdV) from by decide,
          show ¬(exitV = lsV) from by decide,
          show ¬(exitV = pwdV) from by decide,
          show ¬(exitV = qV) from by decide]
      · cases h4 : scanVerbArg catV line with
        | some a4 =>
          obtain ⟨r, hline, hrne⟩ := scan_shape h4
          subst hline
          have hd : dispatchLine (catV ++ r) = .execA (.call (.catB a4)) := by
            unfold dispatchLine execute_command_dispatch
            rw [h1, if_neg hB, if_neg hC, h4]
          simp [hd, h1, h4, hB, hC,
            show scanVerbArg statV (catV ++ r) = none from rfl,
            show scanVerbArg mkdirV (catV ++ r) = none from rfl,
            show scanVerbArg rmdirV (catV ++ r) = none from rfl,
            show scanVerbArg rmV (catV ++ r) = none from rfl,
            show scanVerbArg lsV (catV ++ r) = none from rfl,
            show scanVerbArg qV (catV ++ r) = none from rfl,
            show ¬(catV ++ r = lsV) from by simp [catV, lsV],
            show ¬(catV ++ r = pwdV) from by simp [catV, pwdV],
            show ¬(catV ++ r = qV) from by simp [catV, qV]]
        | none =>
          cases h5 : scanVerbArg statV line with
          | some a5 =>
            obtain ⟨r, hline, hrne⟩ := scan_shape h5
            subst hline
            have hd : dispatchLine (statV ++ r) = .execA (.call (.statB a5)) := by
              unfold dispatchLine execute_command_dispatch
              rw [h1, if_neg hB, if_neg hC, h4, h5]
            simp [hd, h1, h4, h5, hB, hC,
              show scanVerbArg mkdirV (statV ++ r) = none from rfl,
              show scanVerbArg rmdirV (statV ++ r) = none from rfl,
              show scanVerbArg rmV (statV ++ r) = none from rfl,
              show scanVerbArg lsV (statV ++ r) = none from rfl,
              show scanVerbArg qV (statV ++ r) = none from rfl,
              show ¬(statV ++ r = lsV) from by simp [statV, lsV],
              show ¬(statV ++ r = pwdV) from by simp [statV, pwdV],
              show ¬(statV ++ r = qV) from by simp [statV, qV]]
          | none =>
            cases h6 : scanVerbArg mkdirV line with
            | some a6 =>
              obtain ⟨r, hline, hrne⟩ := scan_shape h6
              subst hline
              have hd :
                  dispatchLine (mkdirV ++ r) = .execA (.call (.mkdirB a6)) := by
                unfold dispatchLine execute_command_dispatch
                rw [h1, if_neg hB, if_neg hC, h4, h5, h6]
              simp [hd, h1, h4, h5, h6, hB, hC,
                show scanVerbArg rmdirV (mkdirV ++ r) = none from rfl,
                show scanVerbArg rmV (mkdirV ++ r) = none from rfl,
                show scanVerbArg lsV (mkdirV ++ r) = none from rfl,
                show scanVerbArg qV (mkdirV ++ r) = none from rfl,
                show ¬(mkdirV ++ r = lsV) from by simp [mkdirV, lsV],
                show ¬(mkdirV ++ r = pwdV) from by simp [mkdirV, pwdV],
                show ¬(mkdirV ++ r = qV) from by simp [mkdirV, qV]]
            | none =>
              cases h7 : scanVerbArg rmdirV line with
              | some a7 =>
                obtain ⟨r, hline, hrne⟩ := scan_shape h7
                subst hline
                have hd :
                    dispatchLine (rmdirV ++ r) =
                      .execA (.call (.rmdirB a7)) := by
                  unfold dispatchLine execute_command_dispatch
                  rw [h1, if_neg hB, if_neg hC, h4, h5, h6, h7]
                simp [hd, h1, h4, h5, h6, h7, hB, hC,
                  show scanVerbArg lsV (rmdirV ++ r) = none from rfl,
                  show scanVerbArg qV (rmdirV ++ r) = none from rfl,
                  show ¬(rmdirV ++ r = lsV) from by simp [rmdirV, lsV],
                  show ¬(rmdirV ++ r = pwdV) from by simp [rmdirV, pwdV],
                  show ¬(rmdirV ++ r = qV) from by simp [rmdirV, qV]]
              | none =>
                cases h8 : scanVerbArg rmV line with
                | some a8 =>
                  obtain ⟨r, hline, hrne⟩ := scan_shape h8
                  subst hline
                  have hd :
                      dispatchLine (rmV ++ r) = .execA (.call (.rmB a8)) := by
                    unfold dispatchLine execute_command_dispatch
                    rw [h1, if_neg hB, if_neg hC, h4, h5, h6, h7, h8]
                  simp [hd, h1, h4, h5, h6, h7, h8, hB, hC,
                    show scanVerbArg lsV (rmV ++ r) = none from rfl,
                    show scanVerbArg qV (rmV ++ r) = none from rfl,
                    show ¬(rmV ++ r = lsV) from by simp [rmV, lsV],
                    show ¬(rmV ++ r = pwdV) from by simp [rmV, pwdV],
                    show ¬(rmV ++ r = qV) from by simp [rmV, qV]]
                | none =>
                  cases h9 : scanVerbArg lsV line with
                  | some a9 =>
                    obtain ⟨r, hline, hrne⟩ := scan_shape h9
                    subst hline
                    have hd :
                        dispatchLine (lsV ++ r) =
                          .execA (.call (.lsB a9)) := by
                      unfold dispatchLine execute_command_dispatch
                      rw [h1, if_neg hB, if_neg hC, h4, h5, h6, h7, h8, h9]
                    simp [hd, h1, h4, h5, h6, h7, h8, h9, hB, hC,
                      show scanVerbArg qV (lsV ++ r) = none from rfl,
                      show ¬(lsV ++ r = lsV) from
                        fun h => hrne (by simpa [lsV] using h),
                      show ¬(lsV ++ r = pwdV) from by simp [lsV, pwdV],
                      show ¬(lsV ++ r = qV) from by simp [lsV, qV]]
                  | none =>
                    by_cases hLs : line = lsV
                    · subst hLs
                      simp [show dispatchLine lsV =
                          .execA (.call (.lsB dotV)) from rfl,
                        h1, h4, h5, h6, h7, h8, h9, eq_comm,
                        show scanVerbArg qV lsV =
                          (none : Option (List Char)) from rfl,
                        show ¬(lsV = cdV) from by decide,
                        show ¬(lsV = exitV) from by decide,
                        show ¬(lsV = pwdV) from by decide,
                        show ¬(lsV = qV) from by decide,
                        show ¬(cdV = lsV) from by decide,
                        show ¬(exitV = lsV) from by decide,
                        show ¬(pwdV = lsV) from by decide,
                        show ¬(qV = lsV) from by decide]
                    · by_cases hPwd : line = pwdV
                      · subst hPwd
                        simp [show dispatchLine pwdV =
                            .execA (.call .pwdB) from rfl,
                          h1, h4, h5, h6, h7, h8, h9,
                          show scanVerbArg qV pwdV =
                            (none : Option (List Char)) from rfl,
                          show ¬(pwdV = cdV) from by decide,
                          show ¬(pwdV = exitV) from by decide,
                          show ¬(pwdV = lsV) from by decide,
                          show ¬(pwdV = qV) from by decide]
                      · cases h10 : scanVerbArg qV line with
                        | some b10 =>
                          obtain ⟨r, hline, hrne⟩ := scan_shape h10
                          subst hline
                          have hd :
                              dispatchLine (qV ++ r) =
                                .execA (.call .qB) := by
                            unfold dispatchLine execute_command_dispatch
                            rw [h1, if_neg hB, if_neg hC, h4, h5, h6, h7, h8,
                              h9, if_neg hLs, if_neg hPwd, h10]
                          simp [hd, h1, h4, h5, h6, h7, h8, h9, h10, hB, hC,
                            hLs, hPwd,
                            show ¬(qV ++ r = qV) from
                              fun h => hrne (by simpa [qV] using h)]
                        | none =>
                          by_cases hQ : line = qV
                          · subst hQ
                            simp [show dispatchLine qV =
                                .execA (.call .qB) from rfl,
                              h1, h4, h5, h6, h7, h8, h9, h10,
                              show ¬(qV = cdV) from by decide,
                              show ¬(qV = exitV) from by decide,
                              show ¬(qV = lsV) from by decide,
                              show ¬(qV = pwdV) from by decide]
                          · by_cases hlen : line.length = 0
                            · have hnil : line = [] :=
                                List.length_eq_zero.mp hlen
                              subst hnil
                              simp [show dispatchLine [] =
                                  .execA .silent from rfl,
                                h1, h4, h5, h6, h7, h8, h9, h10,
                                show ¬(([] : List Char) = cdV) from by decide,
                                show ¬(([] : List Char) = exitV) from by decide,
                                show ¬(([] : List Char) = lsV) from by decide,
                                show ¬(([] : List Char) = pwdV) from by decide,
                                show ¬(([] : List Char) = qV) from by decide]
                            · have hd :
                                  dispatchLine line =
                                    .execA (.invalid line) := by
                                unfold dispatchLine execute_command_dispatch
                                rw [h1, if_neg hB, if_neg hC, h4, h5, h6, h7,
                                  h8, h9, if_neg hLs, if_neg hPwd, h10,
                                  if_neg hQ, if_pos hlen]
                              simp [hd, h1, h4, h5, h6, h7, h8, h9, h10,
                                hB, hC, hLs, hPwd, hQ]

/-! ## Helper lemmas about the built-in loops -/

/-- With no read or write failures, the `do_cat` loop emits every chunk
followed by one newline byte, reports nothing, returns 0, and closes the
descriptor once. -/
theorem catLoop_clean (readErr writeOk : Nat → Bool) (msg : List Char)
    (hr : ∀ k, readErr k = false) (hw : ∀ k, writeOk k = true) :
    ∀ (cl : List (List Nat)) (k : Nat),
      catLoop readErr writeOk msg k cl =
        ⟨cl.foldr (fun c acc => c ++ 10 :: acc) [], [], 0, 1, 0⟩ := by
  intro cl
  induction cl with
  | nil => intro k; simp [catLoop, hr k]
  | cons c rest ih => intro k; simp [catLoop, hr k, hw k, ih (k + 1)]

/-- Every run of the `do_cat` loop either reports nothing and returns 0,
or reports exactly the one read/write diagnostic line and returns -1. -/
theorem catLoop_err_cases (readErr writeOk : Nat → Bool) (msg : List Char) :
    ∀ (cl : List (List Nat)) (k : Nat),
      ((catLoop readErr writeOk msg k cl).err = [] ∧
        (catLoop readErr writeOk msg k cl).ret = 0) ∨
      ((catLoop readErr writeOk msg k cl).err = [catReadErrLine msg] ∧
        (catLoop readErr writeOk msg k cl).ret = -1) := by
  intro cl
  induction cl with
  | nil =>
    intro k
    by_cases h : readErr k
    · right; simp [catLoop, h]
    · left; simp [catLoop, h]
  | cons c rest ih =>
    intro k
    by_cases h : readErr k
    · right; simp [catLoop, h]
    · by_cases h' : writeOk k
      · rcases ih (k + 1) with ⟨he, hr⟩ | ⟨he, hr⟩
        · left; simp [catLoop, h, h', he, hr]
        · right; simp [catLoop, h, h', he, hr]
      · right; simp [catLoop, h, h']

/-- Every run of the `do_cat` loop closes the descriptor exactly once. -/
theorem catLoop_closes (readErr writeOk : Nat → Bool) (msg : List Char) :
    ∀ (cl : List (List Nat)) (k : Nat),
      (catLoop readErr writeOk msg k cl).closesFd = 1 := by
  intro cl
  induction cl with
  | nil =>
    intro k
    by_cases h : readErr k <;> simp [catLoop, h]
  | cons c rest ih =>
    intro k
    by_cases h : readErr k
    · simp [catLoop, h]
    · by_cases h' : writeOk k <;> simp [catLoop, h, h', ih (k + 1)]

/-- Every run of the `do_ls` loop either reports nothing and returns 0, or
reports exactly the one enumeration diagnostic line and returns -1. -/
theorem lsLoop_err_cases (msg : List Char) :
    ∀ st : List (List Char × Bool),
      ((lsLoop msg st).err = [] ∧ (lsLoop msg st).ret = 0) ∨
      ((lsLoop msg st).err = [lsReadErrLine msg] ∧
        (lsLoop msg st).ret = -1) := by
  intro st
  induction st with
  | nil => left; simp [lsLoop]
  | cons p rest ih =>
    obtain ⟨nm, e⟩ := p
    by_cases h : e
    · right; simp [lsLoop, h]
    · rcases ih with ⟨he, hr⟩ | ⟨he, hr⟩
      · left; simp [lsLoop, h, he, hr]
      · right; simp [lsLoop, h, he, hr]

/-- Every run of the `do_ls` loop calls `closedir` exactly once. -/
theorem lsLoop_closes (msg : List Char) :
    ∀ st : List (List Char × Bool), (lsLoop msg st).closes = 1 := by
  intro st
  induction st with
  | nil => simp [lsLoop]
  | cons p rest ih =>
    obtain ⟨nm, e⟩ := p
    by_cases h : e <;> simp [lsLoop, h, ih]

/-- A non-empty file of at most 256 bytes is read in a single chunk. -/
theorem chunks256_single {l : List Nat} (hne : l ≠ []) (hlen : l.length ≤ 256) :
    chunks256 l = [l] := by
  cases l with
  | nil => exact absurd rfl hne
  | cons b bs =>
    have hb : bs.length ≤ 255 := by
      simpa using Nat.le_of_succ_le_succ (by simpa using hlen)
    rw [chunks256]
    rw [List.take_of_length_le hb, List.drop_eq_nil_of_le (hb.trans (by omega))]
    simp [chunks256]

/-! ## Claim C2 -/

/-- Claim C2, counterexample.  The line `"catx"` has the single leading
token `catx`, which is none of the recognized verbs; yet `execute_command`
dispatches it to the `cat` built-in with argument `"x"`, writes no error
line, and returns the built-in's value (here 0) rather than -1. -/
theorem c2_counterexample :
    tokens (s2l "catx") = [s2l "catx"] ∧
    (s2l "catx") ∉ knownVerbs ∧
    (execute_command (fun _ => ⟨[], [], 0⟩) (s2l "catx")).1 =
      some (.catB (s2l "x")) ∧
    (execute_command (fun _ => ⟨[], [], 0⟩) (s2l "catx")).2.err = [] ∧
    (execute_command (fun _ => ⟨[], [], 0⟩) (s2l "catx")).2.ret = 0 := by
  decide

/-- Claim C2 (amended).  For every non-empty line that matches none of the
dispatch patterns — it does not literally begin with any recognized verb
followed (after optional whitespace, with no token-boundary requirement)
by a non-whitespace character, and is not exactly `cd`, `exit`, `ls`,
`pwd` or `q` — the dispatcher invokes no built-in, writes exactly one
error line containing the full original input text, and returns -1. -/
theorem c2_unmatched_line (runB : BuiltinCall → RunOut) (line : List Char)
    (hne : line ≠ [])
    (hcd : scanVerbArg cdV line = none) (hcdE : line ≠ cdV)
    (hexE : line ≠ exitV)
    (hcat : scanVerbArg catV line = none)
    (hstat : scanVerbArg statV line = none)
    (hmk : scanVerbArg mkdirV line = none)
    (hrmd : scanVerbArg rmdirV line = none)
    (hrm : scanVerbArg rmV line = none)
    (hls : scanVerbArg lsV line = none) (hlsE : line ≠ lsV)
    (hpwdE : line ≠ pwdV)
    (hq : scanVerbArg qV line = none) (hqE : line ≠ qV) :
    dispatchLine line = .execA (.invalid line) ∧
    execute_command runB line = (none, ⟨[], [myshellErrLine line], -1⟩) ∧
    hasSub line (myshellErrLine line) := by
  have hlen : ¬line.length = 0 := fun h => hne (List.length_eq_zero.mp h)
  have hstep : execute_command_dispatch line = .invalid line := by
    unfold execute_command_dispatch
    rw [hcat, hstat, hmk, hrmd, hrm, hls, if_neg hlsE, if_neg hpwdE, hq,
      if_neg hqE, if_pos hlen]
  refine ⟨?_, ?_, ?_⟩
  · unfold dispatchLine
    rw [hcd, if_neg hcdE, if_neg hexE, hstep]
  · unfold execute_command
    rw [hstep]
  · exact ⟨s2l "myshell: ", s2l ": No such file or directory", rfl⟩

/-- Witness for C2's amended theorem, at the line `"frobnicate"`. -/
theorem c2_unmatched_line_witness :
    s2l "frobnicate" ≠ ([] : List Char) ∧
    (dispatchLine (s2l "frobnicate") = .execA (.invalid (s2l "frobnicate")) ∧
      execute_command (fun _ => ⟨[], [], 0⟩) (s2l "frobnicate") =
        (none, ⟨[], [myshellErrLine (s2l "frobnicate")], -1⟩) ∧
      hasSub (s2l "frobnicate") (myshellErrLine (s2l "frobnicate"))) :=
  ⟨by decide,
    c2_unmatched_line (fun _ => ⟨[], [], 0⟩) (s2l "frobnicate") (by decide)
      (by decide) (by decide) (by decide) (by decide) (by decide) (by decide)
      (by decide) (by decide) (by decide) (by decide) (by decide) (by decide)
      (by decide)⟩

/-! ## Claim C3 -/

/-- Claim C3: with a readable file and no read/write failures, `do_cat`
writes each successive chunk (of at most 256 bytes) verbatim followed by
exactly one newline byte, reports nothing, and returns 0; hence a
non-empty file of at most 255 bytes produces the file's bytes followed by
exactly one newline; and when `open` fails, `do_cat` reports the failure,
returns the negative value -1, and writes nothing to standard output. -/
theorem c3_do_cat_behavior :
    (∀ w : CatWorld, w.openOk = true → (∀ k, w.readErr k = false) →
      (∀ k, w.writeOk k = true) →
      (do_cat w).stdout =
        (chunks256 w.content).foldr (fun c acc => c ++ 10 :: acc) [] ∧
      (do_cat w).err = [] ∧ (do_cat w).ret = 0) ∧
    (∀ w : CatWorld, w.openOk = true → (∀ k, w.readErr k = false) →
      (∀ k, w.writeOk k = true) → w.content ≠ [] → w.content.length ≤ 255 →
      (do_cat w).stdout = w.content ++ [10] ∧ (do_cat w).ret = 0) ∧
    (∀ w : CatWorld, w.openOk = false →
      (do_cat w).stdout = [] ∧ (do_cat w).err = [catOpenErrLine w.openErrMsg] ∧
      (do_cat w).ret = -1 ∧ (do_cat w).ret < 0) := by
  have key : ∀ w : CatWorld, w.openOk = true → (∀ k, w.readErr k = false) →
      (∀ k, w.writeOk k = true) →
      (do_cat w).stdout =
        (chunks256 w.content).foldr (fun c acc => c ++ 10 :: acc) [] ∧
      (do_cat w).err = [] ∧ (do_cat w).ret = 0 := by
    intro w ho hr hw
    simp [do_cat, ho, catLoop_clean w.readErr w.writeOk w.rwErrMsg hr hw]
  refine ⟨key, ?_, ?_⟩
  · intro w ho hr hw hne hlen
    obtain ⟨h1, _, h3⟩ := key w ho hr hw
    refine ⟨?_, h3⟩
    rw [h1, chunks256_single hne (hlen.trans (by omega))]
    simp
  · intro w ho
    simp [do_cat, ho]

/-- Witness for C3, at a two-byte file and at a failed `open`. -/
theorem c3_witness :
    (do_cat ⟨true, [], [104, 105], fun _ => false, fun _ => true, []⟩).stdout =
      [104, 105] ++ [10] ∧
    (do_cat ⟨false, s2l "No such file or directory", [], fun _ => false,
      fun _ => true, []⟩).ret < 0 :=
  ⟨(c3_do_cat_behavior.2.1 ⟨true, [], [104, 105], fun _ => false,
      fun _ => true, []⟩ rfl (fun _ => rfl) (fun _ => rfl) (by decide)
      (by decide)).1,
    (c3_do_cat_behavior.2.2 ⟨false, s2l "No such file or directory", [],
      fun _ => false, fun _ => true, []⟩ rfl).2.2.2⟩

/-! ## Claim C4 -/

/-- Claim C4: for every built-in except `do_pwd` (and except `do_cd`'s
home-default path, excluded by the non-empty-argument hypothesis), every
run either returns 0 with no standard-error output, or returns a negative
value with exactly one standard-error line; and every diagnostic line
contains the command's name and the OS-supplied reason. -/
theorem c4_error_discipline :
    (∀ w : CatWorld, ((do_cat w).ret = 0 ∧ (do_cat w).err = []) ∨
      ((do_cat w).ret < 0 ∧
        ((do_cat w).err = [catOpenErrLine w.openErrMsg] ∨
          (do_cat w).err = [catReadErrLine w.rwErrMsg]))) ∧
    (∀ w : LsWorld, ((do_ls w).ret = 0 ∧ (do_ls w).err = []) ∨
      ((do_ls w).ret < 0 ∧
        ((do_ls w).err = [lsOpenErrLine w.openErrMsg] ∨
          (do_ls w).err = [lsReadErrLine w.readErrMsg]))) ∧
    (∀ (ok : List Char → Bool) (msg d : List Char),
      (ok d = true → do_mkdir ok msg d = ⟨[], 0⟩) ∧
      (ok d = false → do_mkdir ok msg d = ⟨[mkdirErrLine msg], -1⟩)) ∧
    (∀ (ok : List Char → Bool) (msg d : List Char),
      (ok d = true → do_rmdir ok msg d = ⟨[], 0⟩) ∧
      (ok d = false → do_rmdir ok msg d = ⟨[rmdirErrLine msg], -1⟩)) ∧
    (∀ (ok : List Char → Bool) (msg f : List Char),
      (ok f = true → do_rm ok msg f = ⟨[], 0⟩) ∧
      (ok f = false → do_rm ok msg f = ⟨[rmErrLine msg], -1⟩)) ∧
    (∀ (ok : List Char → Bool) (msg rep f : List Char),
      (ok f = true →
        (do_stat ok msg rep f).ret = 0 ∧ (do_stat ok msg rep f).err = []) ∧
      (ok f = false →
        (do_stat ok msg rep f).ret = -1 ∧
        (do_stat ok msg rep f).err = [statErrLine msg])) ∧
    (∀ (w : OSWorld) (d : List Char), d ≠ [] →
      (w.validDir d = true → do_cd w d = .done { w with cwd := d } [] 0) ∧
      (w.validDir d = false →
        do_cd w d = .done w [cdErrLine w.chdirErrMsg] (-1))) ∧
    (∀ m, hasSub catV (catOpenErrLine m) ∧ hasSub m (catOpenErrLine m)) ∧
    (∀ m, hasSub catV (catReadErrLine m) ∧ hasSub m (catReadErrLine m)) ∧
    (∀ m, hasSub lsV (lsOpenErrLine m) ∧ hasSub m (lsOpenErrLine m)) ∧
    (∀ m, hasSub lsV (lsReadErrLine m) ∧ hasSub m (lsReadErrLine m)) ∧
    (∀ m, hasSub mkdirV (mkdirErrLine m) ∧ hasSub m (mkdirErrLine m)) ∧
    (∀ m, hasSub rmdirV (rmdirErrLine m) ∧ hasSub m (rmdirErrLine m)) ∧
    (∀ m, hasSub rmV (rmErrLine m) ∧ hasSub m (rmErrLine m)) ∧
    (∀ m, hasSub statV (statErrLine m) ∧ hasSub m (statErrLine m)) ∧
    (∀ m, hasSub cdV (cdErrLine m) ∧ hasSub m (cdErrLine m)) := by
  refine ⟨?_, ?_, ?_, ?_, ?_, ?_, ?_, ?_, ?_, ?_, ?_, ?_, ?_, ?_, ?_, ?_⟩
  · intro w
    by_cases ho : w.openOk
    · rcases catLoop_err_cases w.readErr w.writeOk w.rwErrMsg
          (chunks256 w.content) 0 with ⟨he, hr⟩ | ⟨he, hr⟩
      · left; simp [do_cat, ho, he, hr]
      · right; simp [do_cat, ho, he, hr]
    · right; simp [do_cat, ho]
  · intro w
    by_cases ho : w.openOk
    · rcases lsLoop_err_cases w.readErrMsg w.stream with ⟨he, hr⟩ | ⟨he, hr⟩
      · left; simp [do_ls, ho, he, hr]
      · right; simp [do_ls, ho, he, hr]
    · right; simp [do_ls, ho]
  · intro ok msg d
    exact ⟨fun h => by simp [do_mkdir, h], fun h => by simp [do_mkdir, h]⟩
  · intro ok msg d
    exact ⟨fun h => by simp [do_rmdir, h], fun h => by simp [do_rmdir, h]⟩
  · intro ok msg f
    exact ⟨fun h => by simp [do_rm, h], fun h => by simp [do_rm, h]⟩
  · intro ok msg rep f
    exact ⟨fun h => by simp [do_stat, h], fun h => by simp [do_stat, h]⟩
  · intro w d hne
    have hlen : ¬d.length = 0 := fun h => hne (List.length_eq_zero.mp h)
    exact ⟨fun h => by simp [do_cd, hlen, h], fun h => by simp [do_cd, hlen, h]⟩
  · exact fun m => ⟨⟨[], s2l ": Cannot open file. " ++ m, rfl⟩,
      ⟨s2l "cat: Cannot open file. ", [], by simp [catOpenErrLine]⟩⟩
  · exact fun m => ⟨⟨[], s2l ": cannot read file. " ++ m, rfl⟩,
      ⟨s2l "cat: cannot read file. ", [], by simp [catReadErrLine]⟩⟩
  · exact fun m => ⟨⟨[], s2l ": " ++ m, rfl⟩,
      ⟨s2l "ls: ", [], by simp [lsOpenErrLine]⟩⟩
  · exact fun m => ⟨⟨[], s2l ": Cannot read entry from directory... " ++ m, rfl⟩,
      ⟨s2l "ls: Cannot read entry from directory... ", [],
        by simp [lsReadErrLine]⟩⟩
  · exact fun m => ⟨⟨[], s2l ": Cannot create directory. " ++ m ++ s2l ".", by
      simp [mkdirErrLine, mkdirV, s2l]⟩,
      ⟨s2l "mkdir: Cannot create directory. ", s2l ".", by
        simp [mkdirErrLine]⟩⟩
  · exact fun m => ⟨⟨[], s2l ": Cannot remove directory. " ++ m ++ s2l ".", by
      simp [rmdirErrLine, rmdirV, s2l]⟩,
      ⟨s2l "rmdir: Cannot remove directory. ", s2l ".", by
        simp [rmdirErrLine]⟩⟩
  · exact fun m => ⟨⟨[], s2l ": Cannot remove file. " ++ m ++ s2l ".", by
      simp [rmErrLine, rmV, s2l]⟩,
      ⟨s2l "rm: Cannot remove file. ", s2l ".", by simp [rmErrLine]⟩⟩
  · exact fun m => ⟨⟨[], s2l ": Cannot retrieve file stats. " ++ m ++ s2l ".", by
      simp [statErrLine, statV, s2l]⟩,
      ⟨s2l "stat: Cannot retrieve file stats. ", s2l ".", by
        simp [statErrLine]⟩⟩
  · exact fun m => ⟨⟨[], s2l ": " ++ m, rfl⟩,
      ⟨s2l "cd: ", [], by simp [cdErrLine]⟩⟩

/-- Witness for C4, at concrete success and failure runs of `do_mkdir` and
a concrete successful `do_cd`. -/
theorem c4_witness :
    do_mkdir (fun _ => true) (s2l "m") (s2l "d") = ⟨[], 0⟩ ∧
    do_mkdir (fun _ => false) (s2l "m") (s2l "d") =
      ⟨[mkdirErrLine (s2l "m")], -1⟩ ∧
    do_cd ⟨[], fun _ => true, none, [], true, [], []⟩ (s2l "tmp") =
      .done ⟨s2l "tmp", fun _ => true, none, [], true, [], []⟩ [] 0 :=
  ⟨(c4_error_discipline.2.2.1 (fun _ => true) (s2l "m") (s2l "d")).1 rfl,
    (c4_error_discipline.2.2.1 (fun _ => false) (s2l "m") (s2l "d")).2 rfl,
    (c4_error_discipline.2.2.2.2.2.2.1
      ⟨[], fun _ => true, none, [], true, [], []⟩ (s2l "tmp") (by decide)).1
      rfl⟩

/-! ## Claim C5 -/

/-- Claim C5: `do_cd` with a non-empty argument naming a valid directory
changes the working directory — a subsequent `do_pwd` reports exactly that
directory — returns 0 and reports nothing; with an invalid argument it
leaves the world (hence the working directory) unchanged, writes exactly
one failure line made of the command name and the OS-supplied reason, and
returns -1. -/
theorem c5_do_cd_frame (w : OSWorld) (d : List Char) (hne : d ≠ []) :
    (w.validDir d = true →
      do_cd w d = .done { w with cwd := d } [] 0 ∧
      (w.getcwdOk = true →
        (do_pwd { w with cwd := d }).stdout = d ++ ['\n'])) ∧
    (w.validDir d = false →
      do_cd w d = .done w [cdErrLine w.chdirErrMsg] (-1) ∧
      hasSub cdV (cdErrLine w.chdirErrMsg) ∧
      hasSub w.chdirErrMsg (cdErrLine w.chdirErrMsg)) := by
  have hlen : ¬d.length = 0 := fun h => hne (List.length_eq_zero.mp h)
  constructor
  · intro hv
    refine ⟨by simp [do_cd, hlen, hv], fun hg => ?_⟩
    simp [do_pwd, hg]
  · intro hv
    refine ⟨by simp [do_cd, hlen, hv], ⟨[], s2l ": " ++ w.chdirErrMsg, rfl⟩,
      ⟨s2l "cd: ", [], by simp [cdErrLine]⟩⟩

/-- Witness for C5, at a concrete world and the directory name `"a"`. -/
theorem c5_witness :
    do_cd ⟨[], fun _ => true, none, [], true, [], []⟩ (s2l "a") =
      .done ⟨s2l "a", fun _ => true, none, [], true, [], []⟩ [] 0 ∧
    (do_pwd ⟨s2l "a", fun _ => true, none, [], true, [], []⟩).stdout =
      s2l "a" ++ ['\n'] :=
  ⟨((c5_do_cd_frame ⟨[], fun _ => true, none, [], true, [], []⟩ (s2l "a")
      (by decide)).1 rfl).1,
    ((c5_do_cd_frame ⟨[], fun _ => true, none, [], true, [], []⟩ (s2l "a")
      (by decide)).1 rfl).2 rfl⟩

/-! ## Claim C6 -/

/-- Claim C6: `do_pwd` always returns the fixed non-zero sentinel 1,
whether `getcwd` succeeds or fails; on failure it reports the reason to
standard error yet still prints the (possibly uninitialized) contents of
the local path buffer to standard output. -/
theorem c6_do_pwd_sentinel (w : OSWorld) :
    (do_pwd w).ret = 1 ∧
    (do_pwd w).stdout = (if w.getcwdOk then w.cwd else w.junkBuf) ++ ['\n'] ∧
    (do_pwd w).err =
      (if w.getcwdOk then [] else [pwdErrLine w.getcwdErrMsg]) := by
  by_cases h : w.getcwdOk <;> simp [do_pwd, h]

/-! ## Claim C7 -/

/-- Claim C7, counterexample.  In a world where the user-database lookup
yields no record (`home = none`), `do_cd` with the empty argument reaches
the unguarded `p->pw_dir` dereference — undefined behaviour — rather than
any reported-failure return: the outcome is `undefBehavior`, not the
`done`-with-diagnostic outcome the claim's guarded reading requires. -/
theorem c7_counterexample :
    do_cd ⟨s2l "/", fun _ => true, none, s2l "e", true, [], []⟩ [] =
      .undefBehavior ∧
    do_cd ⟨s2l "/", fun _ => true, none, s2l "e", true, [], []⟩ [] ≠
      .done ⟨s2l "/", fun _ => true, none, s2l "e", true, [], []⟩
        [cdErrLine (s2l "e")] (-1) := by
  refine ⟨rfl, ?_⟩
  simp [do_cd]

/-- Claim C7 (amended): `do_cd` with an empty argument substitutes the
home directory from the user-database lookup, but the lookup result is
dereferenced with no guard: when the lookup yields no user record the
behaviour is undefined (a NULL dereference, in practice a crash) — the
no-record case is neither detected nor reported.  With a record, the
substituted home directory is passed to `chdir` as usual. -/
theorem c7_cd_home_unguarded :
    (∀ w : OSWorld, w.home = none → do_cd w [] = .undefBehavior) ∧
    (∀ (w : OSWorld) (h : List Char), w.home = some h →
      do_cd w [] =
        (if w.validDir h then .done { w with cwd := h } [] 0
          else .done w [cdErrLine w.chdirErrMsg] (-1))) := by
  constructor
  · intro w hw
    simp [do_cd, hw]
  · intro w h hw
    simp [do_cd, hw]

/-- Witness for C7's amended theorem. -/
theorem c7_witness :
    do_cd ⟨[], fun _ => true, none, [], true, [], []⟩ [] = .undefBehavior ∧
    do_cd ⟨[], fun _ => true, some (s2l "/home/u"), [], true, [], []⟩ [] =
      (if (fun _ => true : List Char → Bool) (s2l "/home/u") then
        .done ⟨s2l "/home/u", fun _ => true, some (s2l "/home/u"), [], true,
          [], []⟩ [] 0
      else .done ⟨[], fun _ => true, some (s2l "/home/u"), [], true, [], []⟩
        [cdErrLine []] (-1)) :=
  ⟨c7_cd_home_unguarded.1 ⟨[], fun _ => true, none, [], true, [], []⟩ rfl,
    c7_cd_home_unguarded.2
      ⟨[], fun _ => true, some (s2l "/home/u"), [], true, [], []⟩
      (s2l "/home/u") rfl⟩

/-! ## Claim C8 -/

/-- Claim C8: every acquired handle is released on every exit path: the
directory handle of `do_ls` is closed exactly once whenever `opendir`
succeeded (success or mid-enumeration failure) and never exists after a
failed `opendir`; the descriptor of `do_cat` is closed exactly once
whenever `open` succeeded (end of file, read failure, or write failure). -/
theorem c8_handles_released :
    (∀ w : LsWorld, (do_ls w).closes = if w.openOk then 1 else 0) ∧
    (∀ w : CatWorld, (do_cat w).closesFd = if w.openOk then 1 else 0) := by
  constructor
  · intro w
    by_cases h : w.openOk
    · simp [do_ls, h, lsLoop_closes]
    · simp [do_ls, h]
  · intro w
    by_cases h : w.openOk
    · simp [do_cat, h, catLoop_closes]
    · simp [do_cat, h]

/-! ## Claim C9 -/

/-- Claim C9: an input line that is empty or consists only of whitespace
strips to the empty line (given that the byte stored before the buffer is
not whitespace, so that the backwards loop stops at `string[-1]`), and the
empty line dispatches to no built-in and produces no output on either
stream. -/
theorem c9_whitespace_line (preByte : Char) (s : List Char)
    (hs : ∀ c ∈ s, isspaceC c = true) (hp : isspaceC preByte = false) :
    strip_trailing_whitespace preByte s = some [] ∧
    dispatchLine [] = .execA .silent ∧
    (∀ runCd runB, mainStep runCd runB [] = ⟨[], [], false⟩) ∧
    (∀ runB, execute_command runB [] = (none, ⟨[], [], -1⟩)) := by
  refine ⟨?_, rfl, fun _ _ => rfl, fun _ => rfl⟩
  have hnil : s.reverse.dropWhile isspaceC = [] := by
    rw [List.dropWhile_eq_nil_iff]
    intro c hc
    exact hs c (List.mem_reverse.mp hc)
  simp [strip_trailing_whitespace, hnil, hp]

/-- Witness for C9, at the all-whitespace line `" \t\n"` with a NUL byte
before the buffer. -/
theorem c9_witness :
    strip_trailing_whitespace '\x00' [' ', '\t', '\n'] = some [] ∧
    dispatchLine [] = .execA .silent :=
  ⟨(c9_whitespace_line '\x00' [' ', '\t', '\n'] (by decide) (by decide)).1,
    (c9_whitespace_line '\x00' [' ', '\t', '\n'] (by decide) (by decide)).2.1⟩

/-! ## Claim C10 -/

/-- Claim C10: `execute_command` on the empty string invokes no built-in
and writes nothing to either stream, yet returns -1 — the same failure
value it returns for an unrecognized command, so the two are
indistinguishable at the outcome-code level; and `main` discards the
outcome: its observable behaviour does not depend on the return values the
invoked operations produce. -/
theorem c10_empty_line_outcome :
    (∀ runB, execute_command runB [] = (none, ⟨[], [], -1⟩)) ∧
    (∀ runB, (execute_command runB (s2l "frobnicate")).2.ret =
      (execute_command runB []).2.ret) ∧
    (∀ (runCd₁ runCd₂ : List Char → RunOut)
      (runB₁ runB₂ : BuiltinCall → RunOut) (line : List Char),
      (∀ x, (runCd₁ x).out = (runCd₂ x).out ∧
        (runCd₁ x).err = (runCd₂ x).err) →
      (∀ b, (runB₁ b).out = (runB₂ b).out ∧
        (runB₁ b).err = (runB₂ b).err) →
      mainStep runCd₁ runB₁ line = mainStep runCd₂ runB₂ line) := by
  refine ⟨fun runB => rfl, fun runB => rfl, ?_⟩
  intro rc₁ rc₂ rb₁ rb₂ line hcd hb
  unfold mainStep
  cases dispatchLine line with
  | cdA x => simp [(hcd x).1, (hcd x).2]
  | exitA => rfl
  | execA s =>
    cases s with
    | call b =>
      unfold runCall
      by_cases hq : b = .qB
      · simp [hq]
      · simp [hq, (hb b).1, (hb b).2]
    | invalid l => rfl
    | silent => rfl

/-- Witness for C10: the ret-independence of `main`'s observable step, at
two oracles differing only in their return values. -/
theorem c10_witness :
    execute_command (fun _ => ⟨[], [], 0⟩) [] = (none, ⟨[], [], -1⟩) ∧
    mainStep (fun _ => ⟨[], [], 5⟩) (fun _ => ⟨[], [], 5⟩) (s2l "ls") =
      mainStep (fun _ => ⟨[], [], 7⟩) (fun _ => ⟨[], [], 7⟩) (s2l "ls") :=
  ⟨c10_empty_line_outcome.1 (fun _ => ⟨[], [], 0⟩),
    c10_empty_line_outcome.2.2 (fun _ => ⟨[], [], 5⟩) (fun _ => ⟨[], [], 7⟩)
      (fun _ => ⟨[], [], 5⟩) (fun _ => ⟨[], [], 7⟩) (s2l "ls")
      (fun _ => ⟨rfl, rfl⟩) (fun _ => ⟨rfl, rfl⟩)⟩

end MyShell
